import Mathlib

/-!
Shallow embedding of the core of pyHANSO (`bfgs1run.py`, `hanso.py`):
a single-start BFGS run with inexact line search for nonsmooth optimization.

Modelling conventions:
* Machine floats are modelled by `FVal`: a rational number, or one of the
  non-finite values `posInf`, `negInf`, `nan`.  Inside the main loop all
  quantities produced by the external line-search oracle are taken to be
  plain rationals (the loop itself performs no finiteness checks there).
* The external collaborators of `bfgs1run` that live outside the repository
  (`linesch_ww`, `qpspecial`, `hgprod`, `numpy.linalg.norm`,
  `numpy.linalg.eig`-based assertion, `time.time`-based deadline test) are
  oracles bundled in `Oracles`, matching spec section 6 which specifies them
  as external contracts.  The weak-Wolfe path (`strongwolfe=False`) is the
  embedded one; the post-line-search code is identical for both paths.
* Python `assert` failures, the unbound-variable `NameError` that
  `bfgs1run` hits when `maxit = 0`, and the `TypeError` raised by the
  malformed format string of the time-limit log message are modelled as
  `Except.error` outcomes (`RErr`); every ordinary `return` of the Python
  function is `Except.ok`.
* The counter `nG` of the Python code is maintained equal to the number of
  columns of `G`; the embedding uses the list length directly.
-/

open Matrix

deriving instance DecidableEq for Except

/-- Model of an IEEE double as seen by the code's `np.isnan`/`np.isinf`
checks: a finite rational or a non-finite value. -/
inductive FVal where
  | fin (q : ℚ) : FVal
  | posInf : FVal
  | negInf : FVal
  | nan : FVal
deriving DecidableEq

/-- True exactly when the value is neither infinite nor nan, i.e. when
`np.isnan(v) or np.isinf(v)` is false. -/
def FVal.isFinite : FVal → Bool
  | .fin _ => true
  | _ => false

/-- The rational carried by a finite value (0 for non-finite ones; the
embedding only reads this after a finiteness check has passed). -/
def FVal.toRat : FVal → ℚ
  | .fin q => q
  | _ => 0

/-- Vectors of the problem dimension. -/
abbrev Vec (n : ℕ) := Fin n → ℚ

/-- Dense square matrices of the problem dimension. -/
abbrev Mat (n : ℕ) := Matrix (Fin n) (Fin n) ℚ

/-- Result of one line-search call (`linesch_ww`, bfgs1run.py line 191):
step `alpha`, new point, value and gradient, the failure flag
(`0` success, `1` Wolfe conditions not satisfied, `-1` no bracket found),
and the trace of function values evaluated during the search. -/
structure LSOut (n : ℕ) where
  alpha : ℚ
  x : Vec n
  f : ℚ
  g : Vec n
  fail : ℤ
  fevalrecline : List ℚ
deriving DecidableEq

/-- External collaborators of `bfgs1run` (spec section 6): the objective and
gradient oracles, the line search, the convex-hull QP (`qpspecial`), the
limited-memory product (`hgprod`), the 2-norm, the eigenvalue-nonnegativity
test of the assertion on line 146, and the per-iteration wall-clock deadline
test (`time.time() > cpufinish`, line 283). -/
structure Oracles (n : ℕ) where
  func : Vec n → FVal
  grad : Vec n → Fin n → FVal
  linesearch : Vec n → Vec n → LSOut n
  qpspecial : List (Vec n) → List ℚ × Vec n
  hgprod : Mat n → Vec n → List (Vec n) → List (Vec n) → Vec n
  norm2 : Vec n → ℚ
  eigNonneg : Mat n → Bool
  timeUp : ℕ → Bool

/-- Caller-supplied parameters of `bfgs1run` (bfgs1run.py lines 16-19).
Defaults are the caller's concern; `H0` and `ngrad` are the already
defaulted values (identity resp. `min(100, min(2n, n+10))`). -/
structure Params (n : ℕ) where
  x0 : Vec n
  maxit : ℕ
  nvec : ℕ
  normtol : ℚ
  fvalquit : ℚ
  xnormquit : ℚ
  quitLSfail : Bool
  ngrad : ℕ
  evaldist : ℚ
  H0 : Mat n
  scale : Bool

/-- Loop-carried state of the main loop of `bfgs1run` (the Python locals
`x, f, g, d, H, S, Y, G, X, w` and the three record lists). -/
structure RState (n : ℕ) where
  x : Vec n
  f : ℚ
  g : Vec n
  d : Vec n
  H : Mat n
  S : List (Vec n)
  Y : List (Vec n)
  G : List (Vec n)
  X : List (Vec n)
  w : List ℚ
  xrec : List (Vec n)
  fevalrec : List (List ℚ)
  Hrec : List (Mat n)
deriving DecidableEq

/-- The tuple returned by every `return` statement of `bfgs1run`:
`x, f, d, H, iter, info, X, G, w, fevalrec, xrec, Hrec`. -/
structure RResult (n : ℕ) where
  x : Vec n
  f : FVal
  d : Vec n
  H : Mat n
  iter : ℕ
  info : ℕ
  X : List (Vec n)
  G : List (Vec n)
  w : List ℚ
  fevalrec : List (List ℚ)
  xrec : List (Vec n)
  Hrec : List (Mat n)
deriving DecidableEq

/-- Abnormal outcomes of `bfgs1run`: the two `assert` statements
(line 146: `np.all(eig(H)[0] >= 0)`; line 291: `sty > 0`), the
`NameError` on line 344 when `maxit = 0` leaves the loop variable `it`
unbound, and the `TypeError` raised on lines 284-285 when the wall-clock
branch formats a log string with two `%d` specifiers but a single
argument `(it + 1)` (the formatting happens in the caller's argument
expression, before `_log` consults `verbose` and before `info = 4`). -/
inductive RErr where
  | eigAssert : RErr
  | curvatureAssert : RErr
  | nameErrorIt : RErr
  | typeErrorTimeLog : RErr
deriving DecidableEq

/-- Outcome of the termination-check block: fall through and continue the
iteration, a `return` with the given info code, or the `TypeError` raised
while formatting the time-limit log message (bfgs1run.py lines 284-285). -/
inductive TermCheckRes where
  | proceed : TermCheckRes
  | ret (info : ℕ) : TermCheckRes
  | typeErrorLog : TermCheckRes
deriving DecidableEq

/-- Termination-check block of the main loop, bfgs1run.py lines 241-287,
with the exact `if`/`elif` nesting of the source: `f < fvalquit` returns
info 2 (TargetValueReached), `elif norm(x) > xnormquit` info 3
(IterateNormExceeded); then `if fail == 1` either continues (when
`quitLSfail` is false) or returns info 7 (LineSearchWolfeFailure),
`elif fail == -1` info 8 (UnboundedBelow); then `if dnorm <= normtol`
info 0 (OptimalityReached); then the wall-clock test, whose branch never
reaches its `info = 4` return: the log message
`'... quitting after %d iteration(s) %d' % (it + 1)` has two `%d`
specifiers but one argument, so Python raises `TypeError` first.
`proceed` means the iteration continues. -/
def terminationCheck (fvalquit xnormquit normtol : ℚ) (quitLSfail : Bool)
    (f xnorm dnorm : ℚ) (fail : ℤ) (timeUp : Bool) : TermCheckRes :=
  if f < fvalquit then .ret 2
  else if xnorm > xnormquit then .ret 3
  else if fail = 1 then
    if quitLSfail then .ret 7
    else if dnorm ≤ normtol then .ret 0
    else if timeUp then .typeErrorLog
    else .proceed
  else if fail = -1 then .ret 8
  else if dnorm ≤ normtol then .ret 0
  else if timeUp then .typeErrorLog
  else .proceed

/-- Gradient-cache update applied to each of the column lists `G` and `X`
(bfgs1run.py lines 199-212), head = most recent column.  `reset` is the
condition `alpha * norm(p, 2) > evaldist`; otherwise the new column is
prepended and, when the cache already holds `ngrad` columns, only the
first `ngrad - 1` old columns are kept (the Python slice `[..., :ngrad-1]`
for `ngrad ≥ 1`). -/
def cacheUpdate {α : Type} (ngrad : ℕ) (reset : Prop) [Decidable reset]
    (a : α) (c : List α) : List α :=
  if reset then [a]
  else if c.length < ngrad then a :: c
  else a :: c.take (ngrad - 1)

/-- Full-memory rank-two BFGS update of the inverse Hessian approximation,
bfgs1run.py lines 303-315.  The code forms `sscaled = sqrt(sstfactor) * s`
and adds `sscaled * sscaled'`; since `sstfactor = max(rho^2*ytHy + rho, 0)`
is nonnegative this equals `sstfactor * (s * s')`, which is the form used
here over the rationals. -/
def bfgsUpdate {n : ℕ} (H : Mat n) (s y : Vec n) : Mat n :=
  let sty := s ⬝ᵥ y
  let rho := 1 / sty
  let Hy := H.mulVec y
  let rhoHyst := rho • vecMulVec Hy s
  let ytHy := y ⬝ᵥ Hy
  let sstfactor := max (rho * rho * ytHy + rho) 0
  H - (rhoHyst.transpose + rhoHyst) + sstfactor • vecMulVec s s

/-- Outcome of one main-loop iteration: a `return` from inside the loop,
an assertion failure, or continuation with the updated state. -/
inductive StepRes (n : ℕ) where
  | done (r : RResult n) : StepRes n
  | err (e : RErr) : StepRes n
  | next (st : RState n) : StepRes n
deriving DecidableEq

/-- One iteration of the main loop of `bfgs1run` (bfgs1run.py lines
145-337), weak-Wolfe path.  In order: the eigenvalue assertion; direction
`p = -H g` (full memory) or `-hgprod(H, g, S, Y)`; the descent test
`gtp >= 0` returning info 6 (over the rationals `gtp` is never nan); the
line search; the gradient-cache update; the optimality witness (`qpspecial`
when the cache holds more than one gradient, else `d = g`, `w = 1`);
the history records (appended unconditionally, lines 230-233); the
termination checks (whose fired wall-clock branch raises `TypeError`
while formatting its log message, lines 284-285, instead of returning
info 4); the curvature assertion `sty > 0` (line 291), whose
failure makes the `sty <= 0` skip branch of lines 322-324 unreachable;
and the Hessian (or limited-memory history) update. -/
def bfgsStep {n : ℕ} (O : Oracles n) (P : Params n) (it : ℕ) (st : RState n) :
    StepRes n :=
  if O.eigNonneg st.H = true then
    let p : Vec n := if P.nvec = 0 then -(st.H.mulVec st.g)
                     else -(O.hgprod st.H st.g st.S st.Y)
    let gtp := st.g ⬝ᵥ p
    if 0 ≤ gtp then
      .done ⟨st.x, .fin st.f, st.d, st.H, it, 6, st.X, st.G, st.w,
             st.fevalrec, st.xrec, st.Hrec⟩
    else
      let gprev := st.g
      let ls := O.linesearch st.x p
      let G := cacheUpdate P.ngrad (ls.alpha * O.norm2 p > P.evaldist) ls.g st.G
      let X := cacheUpdate P.ngrad (ls.alpha * O.norm2 p > P.evaldist) ls.x st.X
      let wd := if 1 < G.length then O.qpspecial G else ([1], ls.g)
      let dnorm := O.norm2 wd.2
      let xrec := st.xrec ++ [ls.x]
      let fevalrec := st.fevalrec ++ [ls.fevalrecline]
      let Hrec := st.Hrec ++ [st.H]
      match terminationCheck P.fvalquit P.xnormquit P.normtol P.quitLSfail
          ls.f (O.norm2 ls.x) dnorm ls.fail (O.timeUp it) with
      | .ret info =>
        .done ⟨ls.x, .fin ls.f, wd.2, st.H, it, info, X, G, wd.1,
               fevalrec, xrec, Hrec⟩
      | .typeErrorLog => .err .typeErrorTimeLog
      | .proceed =>
        let s := ls.alpha • p
        let y := ls.g - gprev
        let sty := s ⬝ᵥ y
        if sty ≤ 0 then .err .curvatureAssert
        else if P.nvec = 0 then
          let H1 := if it = 0 ∧ P.scale then (sty / (y ⬝ᵥ y)) • st.H else st.H
          .next ⟨ls.x, ls.f, ls.g, wd.2, bfgsUpdate H1 s y, st.S, st.Y, G, X,
                 wd.1, xrec, fevalrec, Hrec⟩
        else
          let S := if it + 1 ≤ P.nvec then st.S ++ [s]
                   else (st.S.drop 1).take (P.nvec - 1) ++ [s]
          let Y := if it + 1 ≤ P.nvec then st.Y ++ [y]
                   else (st.Y.drop 1).take (P.nvec - 1) ++ [y]
          let H2 := if P.scale then (sty * (y ⬝ᵥ y)) • P.H0 else st.H
          .next ⟨ls.x, ls.f, ls.g, wd.2, H2, S, Y, G, X,
                 wd.1, xrec, fevalrec, Hrec⟩
  else .err .eigAssert

/-- The `for it in xrange(maxit)` loop of `bfgs1run` plus the fall-through
return of lines 340-344.  When the loop body never ran (`maxit = 0`) the
Python `return ... it ...` on line 344 raises `NameError` because the loop
variable `it` was never bound; otherwise the returned iteration count is
the last loop index `maxit - 1` and `info = 1` (MaxIterations). -/
def bfgsLoop {n : ℕ} (O : Oracles n) (P : Params n) :
    ℕ → ℕ → RState n → Except RErr (RResult n)
  | 0, _, st =>
    if P.maxit = 0 then .error .nameErrorIt
    else .ok ⟨st.x, .fin st.f, st.d, st.H, P.maxit - 1, 1, st.X, st.G, st.w,
              st.fevalrec, st.xrec, st.Hrec⟩
  | fuel + 1, it, st =>
    match bfgsStep O P it st with
    | .done r => .ok r
    | .err e => .error e
    | .next st2 => bfgsLoop O P fuel (it + 1) st2

/-- The whole of `bfgs1run` (bfgs1run.py lines 115-344): initial function
and gradient evaluation, the two finiteness checks returning info 5
(InvalidInitialPoint) with iteration count 0 and the unchanged point,
then the main loop.  Non-finite gradient components in the info-5 returns
are carried through `FVal.toRat` (the claims never inspect `d` there). -/
def bfgs1run {n : ℕ} (O : Oracles n) (P : Params n) :
    Except RErr (RResult n) :=
  let x := P.x0
  let H := P.H0
  let fv := O.func x
  let gv := O.grad x
  let g : Vec n := fun i => (gv i).toRat
  if fv.isFinite = false then
    .ok ⟨x, fv, g, H, 0, 5, [x], [g], [1], [], [], []⟩
  else if ∀ i, (gv i).isFinite = true then
    bfgsLoop O P P.maxit 0 ⟨x, fv.toRat, g, g, H, [], [], [g], [x], [1],
                            [], [], []⟩
  else
    .ok ⟨x, fv, g, H, 0, 5, [x], [g], [1], [], [], []⟩

/-- Hessian-snapshot record of a normally returning run (empty for an
aborted one). -/
def hrecOf {n : ℕ} : Except RErr (RResult n) → List (Mat n)
  | .ok r => r.Hrec
  | .error _ => []

/-- Outcomes of the tail of `hanso` (hanso.py lines 163-194): one of the
five `return` statements, the `NotImplementedError` raise, or falling off
the end of the function (unreachable). -/
inductive HansoOut where
  | returns (site : ℕ) : HansoOut
  | raisesNotImplemented : HansoOut
  | fallsOffEnd : HansoOut
deriving DecidableEq

/-- Post-BFGS dispatch of `hanso` (hanso.py lines 163-194), with the exact
branch order of the source: non-finite best value returns (site 0); wall
clock exceeded returns (site 1); `f < fvalquit` returns (site 2);
`dnorm < normtol` returns (site 3); `elif not sampgrad` returns (site 4);
else the gradient-sampling phase raises `NotImplementedError`. -/
def hansoTail (f : FVal) (timeUp : Bool) (fvalquit normtol dnorm : ℚ)
    (sampgrad : Bool) : HansoOut :=
  if f.isFinite = false then .returns 0
  else if timeUp then .returns 1
  else if f.toRat < fvalquit then .returns 2
  else if dnorm < normtol then .returns 3
  else if sampgrad = false then .returns 4
  else if sampgrad = true then .raisesNotImplemented
  else .fallsOffEnd

/-- Termination dispatch as a single priority list, following the
specification's order for (a)-(e): (a) `f < fvalquit` → 2,
(b) `xnorm > xnormquit` → 3, (c) `fail = 1` with `quitLSfail` set → 7,
(d) `fail = -1` → 8, (e) `dnorm ≤ normtol` → 0; the first predicate that
holds determines the code.  Amended at (f): when the wall-clock predicate
fires it yields the `TypeError` of the malformed log format string
(bfgs1run.py lines 284-285), not a TimeLimitExceeded return. -/
def terminationPriority (fvalquit xnormquit normtol : ℚ) (quitLSfail : Bool)
    (f xnorm dnorm : ℚ) (fail : ℤ) (timeUp : Bool) : TermCheckRes :=
  if f < fvalquit then .ret 2
  else if xnorm > xnormquit then .ret 3
  else if fail = 1 ∧ quitLSfail = true then .ret 7
  else if fail = -1 then .ret 8
  else if dnorm ≤ normtol then .ret 0
  else if timeUp then .typeErrorLog
  else .proceed

/-- Concrete oracle set in dimension 1 used to exercise the embedding:
`f(x0) = 0`, `g(x0) = 1`, one successful line-search step to the point 0
with value -1 and gradient 0 (so `y = -1`, `s = -1`, `sty = 1 > 0`), a
constant 2-norm oracle, the genuine sign test on the single matrix entry
for the eigenvalue assertion, and no deadline. -/
def wOracle : Oracles 1 where
  func := fun _ => .fin 0
  grad := fun _ _ => .fin 1
  linesearch := fun _ _ => ⟨1, fun _ => 0, -1, fun _ => 0, 0, [(-1 : ℚ)]⟩
  qpspecial := fun _ => ([1], fun _ => 0)
  hgprod := fun _ g _ _ => g
  norm2 := fun _ => 1
  eigNonneg := fun H => decide (0 ≤ H 0 0)
  timeUp := fun _ => false

/-- Parameters paired with `wOracle`: one full-memory iteration, budgets
chosen so that no termination check fires at the first iteration. -/
def wParams : Params 1 where
  x0 := fun _ => 1
  maxit := 1
  nvec := 0
  normtol := -1
  fvalquit := -100
  xnormquit := 100
  quitLSfail := true
  ngrad := 2
  evaldist := 0
  H0 := fun _ _ => 1
  scale := false

/-- Variant of `wOracle` whose line search returns the gradient unchanged,
so that `y = g - gprev = 0` and the curvature `sty = s.T y` is 0. -/
def cOracle : Oracles 1 :=
  { wOracle with linesearch := fun _ _ => ⟨1, fun _ => 0, -1, fun _ => 1, 0, [(-1 : ℚ)]⟩ }

/-- Variant of `wOracle` whose objective is nan at every point. -/
def nanOracle : Oracles 1 :=
  { wOracle with func := fun _ => .nan }

/-- Variant of `wOracle` whose wall-clock deadline test fires at every
iteration (`time.time() > cpufinish` already true). -/
def tOracle : Oracles 1 :=
  { wOracle with timeUp := fun _ => true }

/-- Transpose of an outer product swaps the factors. -/
theorem vecMulVec_transpose_eq {n : ℕ} (w v : Vec n) :
    (vecMulVec w v)ᵀ = vecMulVec v w := by
  ext i j
  simp [Matrix.vecMulVec_apply, Matrix.transpose_apply, mul_comm]

/-- Action of an outer product on a vector. -/
theorem vecMulVec_mulVec_eq {n : ℕ} (w v u : Vec n) :
    (vecMulVec w v).mulVec u = (v ⬝ᵥ u) • w := by
  ext i
  simp only [Matrix.mulVec, Matrix.dotProduct, Matrix.vecMulVec_apply,
    Pi.smul_apply, smul_eq_mul]
  rw [Finset.sum_mul]
  exact Finset.sum_congr rfl fun j _ => by ring

/-- Taking `m` of a list whose tail part was already truncated at `m`. -/
theorem take_append_take_eq {α : Type} (u v : List α) (m : ℕ) :
    (u ++ v.take m).take m = (u ++ v).take m := by
  rw [List.take_append_eq_append_take, List.take_append_eq_append_take,
    List.take_take]
  congr 1
  rw [Nat.min_eq_left (Nat.sub_le m _)]

/-- A non-reset cache update is truncation of the prepended list. -/
theorem cacheUpdate_push {α : Type} (ngrad : ℕ) (hng : 1 ≤ ngrad) (a : α)
    (c : List α) (hc : c.length ≤ ngrad) :
    cacheUpdate ngrad False a c = (a :: c).take ngrad := by
  cases ngrad with
  | zero => omega
  | succ m =>
    rw [List.take_succ_cons]
    unfold cacheUpdate
    rw [if_neg (fun h => h)]
    by_cases h : c.length < m + 1
    · rw [if_pos h, List.take_of_length_le (by omega)]
    · rw [if_neg h]
      simp

/-- Folding non-reset pushes over the cache truncates the accumulated
most-recent-first list at `ngrad`. -/
theorem cacheUpdate_foldl {α : Type} (ngrad : ℕ) (hng : 1 ≤ ngrad) :
    ∀ (l c : List α), c.length ≤ ngrad →
      List.foldl (fun acc b => cacheUpdate ngrad False b acc) c l
        = (l.reverse ++ c).take ngrad
  | [], c, hc => by simp [List.take_of_length_le hc]
  | b :: l, c, hc => by
    rw [List.foldl_cons, cacheUpdate_push ngrad hng b c hc,
      cacheUpdate_foldl ngrad hng l ((b :: c).take ngrad)
        (by simp [List.length_take])]
    rw [take_append_take_eq]
    simp

example : (bfgs1run wOracle wParams).map (fun r => (r.info, r.iter)) =
    .ok (1, 0) := by
  norm_num [bfgs1run, bfgsLoop, bfgsStep, cacheUpdate, terminationCheck,
    bfgsUpdate, wOracle, wParams, FVal.isFinite, FVal.toRat, Except.map,
    Matrix.mulVec, Matrix.dotProduct, Fin.sum_univ_one]

example : bfgs1run cOracle wParams = .error .curvatureAssert := by
  norm_num [bfgs1run, bfgsLoop, bfgsStep, cacheUpdate, terminationCheck,
    bfgsUpdate, cOracle, wOracle, wParams, FVal.isFinite, FVal.toRat,
    Matrix.mulVec, Matrix.dotProduct, Fin.sum_univ_one]

example : bfgs1run wOracle { wParams with maxit := 0 } =
    .error .nameErrorIt := by
  norm_num [bfgs1run, bfgsLoop, wOracle, wParams, FVal.isFinite]

example : bfgs1run nanOracle wParams =
    .ok ⟨fun _ => 1, .nan, fun _ => 1, fun _ _ => 1, 0, 5,
         [fun _ => 1], [fun _ => 1], [1], [], [], []⟩ := by
  norm_num [bfgs1run, nanOracle, wOracle, wParams, FVal.isFinite, FVal.toRat]

/-- C3 as amended: in every iteration of `bfgs1run` the termination
predicates are evaluated in the fixed priority order (a) `f < fvalquit`
gives code 2 (TargetValueReached), (b) `xnorm > xnormquit` gives 3
(IterateNormExceeded), (c) `fail = 1` with `quitLSfail` set gives 7
(LineSearchWolfeFailure), with `quitLSfail` false continuing, (d)
`fail = -1` gives 8 (UnboundedBelow), (e) `dnorm ≤ normtol` gives 0
(OptimalityReached); the first predicate that holds determines the single
code and ends the run with the current state; the wall-clock predicate
(f) is evaluated last, but when it fires the run aborts with the
`TypeError` of the malformed log format string (bfgs1run.py lines
284-285) instead of returning TimeLimitExceeded: the check block of the
source (`terminationCheck`, used by `bfgsStep`) coincides with the
amended priority list `terminationPriority`. -/
theorem terminationCheck_eq_priority (fvalquit xnormquit normtol : ℚ)
    (quitLSfail : Bool) (f xnorm dnorm : ℚ) (fail : ℤ) (timeUp : Bool) :
    terminationCheck fvalquit xnormquit normtol quitLSfail f xnorm dnorm
        fail timeUp
      = terminationPriority fvalquit xnormquit normtol quitLSfail f xnorm
        dnorm fail timeUp := by
  unfold terminationCheck terminationPriority
  split_ifs <;> simp_all

/-- Counterexample to C3 as originally stated: a run in which the
wall-clock predicate (f) fires while the predicates (a)-(e) are all false
does not end with code 4 (TimeLimitExceeded); it aborts with the
`TypeError` raised while formatting the time-limit log message
(bfgs1run.py lines 284-285), which is evaluated before `info = 4`. -/
theorem terminationTime_typeError_counterexample :
    bfgs1run tOracle wParams = .error .typeErrorTimeLog := by
  norm_num [bfgs1run, bfgsLoop, bfgsStep, cacheUpdate, terminationCheck,
    bfgsUpdate, tOracle, wOracle, wParams, FVal.isFinite, FVal.toRat,
    Matrix.mulVec, Matrix.dotProduct, Fin.sum_univ_one]

/-- C5: the gradient cache is reset to a singleton on a far step, and a
near step prepends the new pair most-recent-first, evicting the oldest
once the size would exceed `ngrad`: an update is exactly truncation of
the prepended list at `ngrad`, the size after one push is
`min ngrad (size + 1)`, a sequence of pushes keeps exactly the most
recent pairs, and the size of `k` pushes onto a cache of size `c0` is
`min ngrad (k + c0)` (so pushing `k ≤ ngrad` pairs starting from nothing
retained yields size `k`, and the size never exceeds `ngrad`). -/
theorem gradientCache_bounded_fifo {α : Type} (ngrad : ℕ) (a : α)
    (c l : List α) (hng : 1 ≤ ngrad) (hc : c.length ≤ ngrad) :
    cacheUpdate ngrad True a c = [a] ∧
    cacheUpdate ngrad False a c = (a :: c).take ngrad ∧
    (cacheUpdate ngrad False a c).length = min ngrad (c.length + 1) ∧
    List.foldl (fun acc b => cacheUpdate ngrad False b acc) c l
      = (l.reverse ++ c).take ngrad ∧
    (List.foldl (fun acc b => cacheUpdate ngrad False b acc) c l).length
      = min ngrad (l.length + c.length) := by
  refine ⟨by simp [cacheUpdate], cacheUpdate_push ngrad hng a c hc, ?_, ?_, ?_⟩
  · rw [cacheUpdate_push ngrad hng a c hc, List.length_take]
    simp
  · exact cacheUpdate_foldl ngrad hng l c hc
  · rw [cacheUpdate_foldl ngrad hng l c hc, List.length_take]
    simp

/-- Witness for C5 with `ngrad = 2`: a reset yields `[7]`; a push onto
`[1]` yields `[7, 1]` of size 2; pushing `2, 3, 4` onto `[1]` keeps
exactly the two most recent pairs `[4, 3]`. -/
theorem gradientCache_bounded_fifo_witness :
    cacheUpdate 2 True (7 : ℕ) [1] = [7] ∧
    cacheUpdate 2 False (7 : ℕ) [1] = [7, 1] ∧
    (cacheUpdate 2 False (7 : ℕ) [1]).length = 2 ∧
    List.foldl (fun acc b => cacheUpdate 2 False b acc) [1] [2, 3, 4]
      = [4, 3] ∧
    (List.foldl (fun acc b => cacheUpdate 2 False b acc) [(1 : ℕ)]
      [2, 3, 4]).length = 2 :=
  gradientCache_bounded_fifo 2 7 [1] [2, 3, 4] (by norm_num) (by norm_num)

/-- C6: the full-memory BFGS update satisfies the secant property in exact
arithmetic: for symmetric `H`, positive curvature `sty = s.T y`, and the
clamp not triggered (`rho^2 * ytHy + rho` nonnegative, so the `max` with 0
keeps it), the updated matrix maps `y` to `s`. -/
theorem bfgsUpdate_secant {n : ℕ} (H : Mat n) (s y : Vec n)
    (hsymm : H.IsSymm) (hsty : 0 < s ⬝ᵥ y)
    (hclamp : 0 ≤ 1 / (s ⬝ᵥ y) * (1 / (s ⬝ᵥ y)) * (y ⬝ᵥ H.mulVec y)
      + 1 / (s ⬝ᵥ y)) :
    (bfgsUpdate H s y).mulVec y = s := by
  have h0 : s ⬝ᵥ y ≠ 0 := ne_of_gt hsty
  simp only [bfgsUpdate]
  rw [max_eq_left hclamp]
  rw [Matrix.add_mulVec, Matrix.sub_mulVec, Matrix.add_mulVec,
    Matrix.transpose_smul, vecMulVec_transpose_eq]
  simp only [Matrix.smul_mulVec_assoc, vecMulVec_mulVec_eq]
  funext i
  simp only [Pi.add_apply, Pi.sub_apply, Pi.smul_apply, smul_eq_mul]
  rw [Matrix.dotProduct_comm (H.mulVec y) y]
  field_simp
  ring

/-- Witness for C6 in dimension 1 with `H = 1`, `s = y = 1`. -/
theorem bfgsUpdate_secant_witness :
    (bfgsUpdate (fun _ _ => 1 : Mat 1) (fun _ => 1) (fun _ => 1)).mulVec
        (fun _ => 1)
      = (fun _ => 1 : Vec 1) :=
  bfgsUpdate_secant (fun _ _ => 1) (fun _ => 1) (fun _ => 1)
    (Matrix.IsSymm.ext fun _ _ => rfl)
    (by norm_num [Matrix.dotProduct, Fin.sum_univ_one])
    (by norm_num [Matrix.dotProduct, Matrix.mulVec, Fin.sum_univ_one])

/-- C7: the full-memory BFGS update is symmetric by construction: for
symmetric `H` and positive curvature the updated matrix equals its own
transpose exactly. -/
theorem bfgsUpdate_isSymm {n : ℕ} (H : Mat n) (s y : Vec n)
    (hsymm : H.IsSymm) (hsty : 0 < s ⬝ᵥ y) :
    (bfgsUpdate H s y).IsSymm := by
  have hH : Hᵀ = H := hsymm
  unfold Matrix.IsSymm
  simp only [bfgsUpdate, Matrix.transpose_add, Matrix.transpose_sub,
    Matrix.transpose_smul, Matrix.transpose_transpose, vecMulVec_transpose_eq]
  rw [hH]
  abel

/-- Witness for C7 in dimension 1 with `H = 1`, `s = y = 1`. -/
theorem bfgsUpdate_isSymm_witness :
    (bfgsUpdate (fun _ _ => 1 : Mat 1) (fun _ => 1) (fun _ => 1)).IsSymm :=
  bfgsUpdate_isSymm (fun _ _ => 1) (fun _ => 1) (fun _ => 1)
    (Matrix.IsSymm.ext fun _ _ => rfl)
    (by norm_num [Matrix.dotProduct, Fin.sum_univ_one])

/-- C9: when the BFGS phase of `hanso` completes with a finite best value
and neither the time limit, the target value, nor optimality within
`normtol` was reached, setting `sampgrad` makes the tail of `hanso` raise
`NotImplementedError` rather than silently do nothing. -/
theorem hansoTail_raises_notImplemented (f : FVal) (timeUp : Bool)
    (fvalquit normtol dnorm : ℚ) (sampgrad : Bool)
    (hf : f.isFinite = true) (ht : timeUp = false)
    (hq : ¬ f.toRat < fvalquit) (hd : ¬ dnorm < normtol)
    (hs : sampgrad = true) :
    hansoTail f timeUp fvalquit normtol dnorm sampgrad
      = .raisesNotImplemented := by
  subst ht hs
  simp [hansoTail, hf, hq, hd]

/-- Witness for C9: finite best value 1, no deadline, target 0, tolerance
0, `dnorm = 1`, `sampgrad` set. -/
theorem hansoTail_raises_notImplemented_witness :
    hansoTail (.fin 1) false 0 0 1 true = .raisesNotImplemented :=
  hansoTail_raises_notImplemented (.fin 1) false 0 0 1 true rfl rfl
    (by norm_num [FVal.toRat]) (by norm_num) rfl

/-- Hessian record carried by a step outcome. -/
def stepHrec {n : ℕ} : StepRes n → List (Mat n)
  | .done r => r.Hrec
  | .err _ => []
  | .next st => st.Hrec

/-- One loop iteration preserves the invariant that every recorded Hessian
snapshot passed the eigenvalue assertion: the record is appended only after
the assertion on the current `H` succeeded. -/
theorem bfgsStep_hrec {n : ℕ} (O : Oracles n) (P : Params n) (it : ℕ)
    (st : RState n) (h : st.Hrec.all O.eigNonneg = true) :
    (stepHrec (bfgsStep O P it st)).all O.eigNonneg = true := by
  simp only [bfgsStep]
  by_cases he : O.eigNonneg st.H = true
  · rw [if_pos he]
    by_cases hnv : P.nvec = 0
    · simp only [if_pos hnv]
      split
      · simpa [stepHrec] using h
      · split
        · simp_all [stepHrec, List.all_append]
        · simp [stepHrec]
        · split
          · simp [stepHrec]
          · simp_all [stepHrec, List.all_append]
    · simp only [if_neg hnv]
      split
      · simpa [stepHrec] using h
      · split
        · simp_all [stepHrec, List.all_append]
        · simp [stepHrec]
        · split
          · simp [stepHrec]
          · simp_all [stepHrec, List.all_append]
  · rw [if_neg he]
    simp [stepHrec]

/-- The whole loop preserves the invariant of `bfgsStep_hrec` through to a
normal return. -/
theorem bfgsLoop_hrec {n : ℕ} (O : Oracles n) (P : Params n) :
    ∀ (fuel it : ℕ) (st : RState n), st.Hrec.all O.eigNonneg = true →
      (hrecOf (bfgsLoop O P fuel it st)).all O.eigNonneg = true
  | 0, it, st, h => by
    unfold bfgsLoop
    split
    · simp [hrecOf]
    · simpa [hrecOf] using h
  | fuel + 1, it, st, h => by
    unfold bfgsLoop
    have hs := bfgsStep_hrec O P it st h
    cases hstep : bfgsStep O P it st with
    | done r =>
      rw [hstep] at hs
      simp only [hstep]
      simpa [hrecOf, stepHrec] using hs
    | err e => simp [hstep, hrecOf]
    | next st2 =>
      rw [hstep] at hs
      simp only [hstep]
      exact bfgsLoop_hrec O P fuel (it + 1) st2 (by simpa [stepHrec] using hs)

/-- C10: `bfgs1run` asserts at the start of every main-loop iteration
(both memory modes, before the direction computation) that the eigenvalue
test on the current inverse-Hessian approximation passes: every Hessian
snapshot recorded by a normally returning run passed the assertion
(an aborted run records nothing here), and a run that reaches the first
iteration with an `H0` failing the test aborts with the assertion error
instead of returning a termination code. -/
theorem bfgs1run_eig_assertion (n : ℕ) (O : Oracles n) (P : Params n) :
    (hrecOf (bfgs1run O P)).all O.eigNonneg = true ∧
    (0 < P.maxit → (O.func P.x0).isFinite = true →
      (∀ i, (O.grad P.x0 i).isFinite = true) →
      O.eigNonneg P.H0 = false →
      bfgs1run O P = .error .eigAssert) := by
  constructor
  · unfold bfgs1run
    by_cases hf : (O.func P.x0).isFinite = false
    · rw [if_pos hf]
      simp [hrecOf]
    · rw [if_neg hf]
      by_cases hg : ∀ i, (O.grad P.x0 i).isFinite = true
      · rw [if_pos hg]
        exact bfgsLoop_hrec O P P.maxit 0 _ (by simp)
      · rw [if_neg hg]
        simp [hrecOf]
  · intro hm hf hg he
    unfold bfgs1run
    rw [if_neg (by simp [hf]), if_pos hg]
    cases hmx : P.maxit with
    | zero => omega
    | succ k =>
      unfold bfgsLoop
      simp [bfgsStep, he]

/-- Witness for C10: the one-iteration run with `wOracle` returns normally
and all its recorded snapshots pass the sign test, while the same oracle
started at `H0 = -1` (which fails the sign test) aborts with the
eigenvalue assertion error. -/
theorem bfgs1run_eig_assertion_witness :
    (hrecOf (bfgs1run wOracle wParams)).all wOracle.eigNonneg = true ∧
    bfgs1run wOracle { wParams with H0 := fun _ _ => -1 }
      = .error .eigAssert :=
  ⟨(bfgs1run_eig_assertion 1 wOracle wParams).1,
   (bfgs1run_eig_assertion 1 wOracle { wParams with H0 := fun _ _ => -1 }).2
     (by norm_num [wParams]) rfl (fun i => rfl)
     (by norm_num [wOracle, decide_eq_false_iff_not])⟩

/-- C1: the claim says an iteration with curvature `sty ≤ 0` skips the
Hessian update and continues; the code instead hits `assert sty > 0`
(bfgs1run.py line 291) before the skip branch of lines 322-324, which is
therefore unreachable, and the run aborts.  Concretely: with the oracle
`cOracle`, whose line search returns the gradient unchanged (so `y = 0`
and `sty = 0`), the run aborts with the curvature assertion error instead
of continuing to the `MaxIterations` return. -/
theorem bfgs1run_sty_nonpos_aborts :
    bfgs1run cOracle wParams = .error .curvatureAssert := by
  norm_num [bfgs1run, bfgsLoop, bfgsStep, cacheUpdate, terminationCheck,
    bfgsUpdate, cOracle, wOracle, wParams, FVal.isFinite, FVal.toRat,
    Matrix.mulVec, Matrix.dotProduct, Fin.sum_univ_one]

/-- C2: the claim says a run with `maxit = 0` returns info 1
(MaxIterations) with the point unchanged; the code instead raises
`NameError` at the fall-through return (bfgs1run.py line 344) because the
loop variable `it` was never bound: for every valid initial point (finite
`f` and `g` at `x0`) and `maxit = 0`, the run aborts with that error. -/
theorem bfgs1run_maxit_zero_nameError (n : ℕ) (O : Oracles n)
    (P : Params n) (hm : P.maxit = 0)
    (hf : (O.func P.x0).isFinite = true)
    (hg : ∀ i, (O.grad P.x0 i).isFinite = true) :
    bfgs1run O P = .error .nameErrorIt := by
  unfold bfgs1run
  rw [if_neg (by simp [hf]), if_pos hg, hm]
  unfold bfgsLoop
  rw [if_pos hm]

/-- Witness for C2: the concrete dimension-1 oracle with `maxit = 0`. -/
theorem bfgs1run_maxit_zero_nameError_witness :
    bfgs1run wOracle { wParams with maxit := 0 } = .error .nameErrorIt :=
  bfgs1run_maxit_zero_nameError 1 wOracle { wParams with maxit := 0 }
    rfl rfl (fun i => rfl)

/-- C4: when `func` or `grad` is non-finite at the initial point, the run
returns immediately with info 5 (InvalidInitialPoint), iteration count 0,
and the returned point equal to `x0`. -/
theorem bfgs1run_invalid_initial_point (n : ℕ) (O : Oracles n)
    (P : Params n)
    (h : (O.func P.x0).isFinite = false ∨
      ∃ i, (O.grad P.x0 i).isFinite = false) :
    (bfgs1run O P).map (fun r => (r.info, r.iter, r.x))
      = .ok (5, 0, P.x0) := by
  unfold bfgs1run
  rcases h with hf | ⟨i, hi⟩
  · rw [if_pos hf]
    rfl
  · by_cases hf : (O.func P.x0).isFinite = false
    · rw [if_pos hf]
      rfl
    · rw [if_neg hf, if_neg (fun hall => by rw [hall i] at hi; cases hi)]
      rfl

/-- Witness for C4: the oracle whose objective is nan everywhere. -/
theorem bfgs1run_invalid_initial_point_witness :
    (bfgs1run nanOracle wParams).map (fun r => (r.info, r.iter, r.x))
      = .ok (5, 0, wParams.x0) :=
  bfgs1run_invalid_initial_point 1 nanOracle wParams (.inl rfl)

/-- C8: the claim says history entries are recorded only when recording is
enabled; `bfgs1run` has no recording flag and appends to `xrec`,
`fevalrec` and `Hrec` unconditionally every iteration (bfgs1run.py lines
230-233, marked `XXX this recordings shoud be optional!`).  Concretely:
the one-iteration run records one entry in each history list even though
nothing in the call enabled recording. -/
theorem bfgs1run_records_unconditionally :
    (bfgs1run wOracle wParams).map
        (fun r => (r.xrec.length, r.fevalrec.length, r.Hrec.length, r.iter))
      = .ok (1, 1, 1, 0) := by
  norm_num [bfgs1run, bfgsLoop, bfgsStep, cacheUpdate, terminationCheck,
    bfgsUpdate, wOracle, wParams, FVal.isFinite, FVal.toRat, Except.map,
    Matrix.mulVec, Matrix.dotProduct, Fin.sum_univ_one]
